import Mathlib

/-!
Verification of the watson-ci core (`watson/core.py`): the debounced
per-project build scheduler, the build runner, the project watcher and the
daemon registry, shallowly embedded in Lean.

Paths are modelled as lists of components from the filesystem root
(the root directory is `[]`, `parent` is `List.dropLast`).  The shell
execution primitive (fabric's `operations.local`) is an external
collaborator and is therefore a parameter `runCmd : working dir → command →
CmdResult` of every function that runs commands; likewise `os.listdir` is a
parameter `listdir` and `path.abspath` a parameter `abspath`.
-/

namespace Watson

/-- The result object returned by the shell execution primitive
(fabric `local(command, capture=True)`): captured stdout, captured stderr
and the success flag. -/
structure CmdResult where
  stdout : String
  stderr : String
  succeeded : Bool
  deriving DecidableEq, Repr

/-- Modelled from the spec: `watson.config.ProjectConfig` (its source file is
not under src/; only `core.py` is).  Per §6 the config is a mapping with at
least the keys `script` (ordered list of command strings) and
`build_timeout` (debounce delay). -/
structure ProjectConfig where
  script : List String
  build_timeout : Nat
  deriving DecidableEq, Repr

/-- Modelled from the spec: the `config.ProjectConfig(user_config)`
constructor wraps the user mapping; on the two specified keys it is the
identity. -/
def ProjectConfig.ofUser (c : ProjectConfig) : ProjectConfig := c

/-! ## BuildRunner (`ProjectBuilder._execute_script_internal`) -/

namespace ProjectBuilder

/-- The loop body of `_execute_script_internal`: `succeeded` starts `True`
and `result` starts `None`; for each command the runner executes it,
conjoins the success flag and breaks as soon as `succeeded` is false,
returning `(succeeded, result)`. -/
def execute_loop (runCmd : List String → String → CmdResult)
    (wd : List String) (succeeded : Bool) (result : Option CmdResult) :
    List String → Bool × Option CmdResult
  | [] => (succeeded, result)
  | c :: rest =>
    let r := runCmd wd c
    let s := succeeded && r.succeeded
    if !s then (s, some r) else execute_loop runCmd wd s (some r) rest

/-- `ProjectBuilder.execute_script` / `_execute_script_internal`. -/
def execute_script (runCmd : List String → String → CmdResult)
    (wd : List String) (script : List String) : Bool × Option CmdResult :=
  execute_loop runCmd wd true none script

/-- Instrumentation of the same loop: the list of commands the runner
actually executes (each iteration of the loop runs exactly one command
before the break test). -/
def executed_commands (runCmd : List String → String → CmdResult)
    (wd : List String) (succeeded : Bool) : List String → List String
  | [] => []
  | c :: rest =>
    let r := runCmd wd c
    let s := succeeded && r.succeeded
    if !s then [c] else c :: executed_commands runCmd wd s rest

end ProjectBuilder

/-- Formalisation of the spec's phrase "success with empty output" for the
result of `execute_script`: the success flag is set and the returned result
object exists and has empty stdout and stderr. -/
def successWithEmptyOutput (st : Bool × Option CmdResult) : Prop :=
  st.1 = true ∧ ∃ r, st.2 = some r ∧ r.stdout = "" ∧ r.stderr = ""

/-! ## Notifications (`ProjectWatcher._show_notification`) -/

/-- Python `str.strip()` on the underlying character list: drop leading and
trailing whitespace. -/
def stripChars (l : List Char) : List Char :=
  ((l.dropWhile Char.isWhitespace).reverse.dropWhile Char.isWhitespace).reverse

/-- Python `str.strip()`. -/
def pyStrip (s : String) : String := ⟨stripChars s.data⟩

/-- Python's `s or default` on strings: the empty string is falsy, every
other string is truthy. -/
def pyOrElse (s default : String) : String := if s = "" then default else s

namespace ProjectWatcher

/-- `ProjectWatcher._show_notification`, reduced to the (title, body) pair
handed to the notification renderer: `output` is the stripped stdout and
stripped stderr joined with a line break; on failure the title is
`"<name> failed"` and the body is `output or "No output"`; on success the
title is `"<name> back to normal"` and the body is `output`. -/
def show_notification (name : String) (succeeded : Bool) (result : CmdResult) :
    String × String :=
  let output := pyStrip result.stdout ++ "\n" ++ pyStrip result.stderr
  if !succeeded then (name ++ " failed", pyOrElse output ("No output"))
  else (name ++ " back to normal", output)

end ProjectWatcher

/-! ## Project directory discovery (`find_project_directory`,
`get_project_name`) -/

def CONFIG_FILENAME : String := ".watson.yaml"

def DEFAULT_PROJECT_INDICATORS : List String :=
  [CONFIG_FILENAME, ".vip", "setup.py"]

/-- The loop's test: `any(i in look_for for i in items)` where `items =
os.listdir(directory)`.  The directory listing is an external collaborator,
passed in as `listdir`. -/
def has_indicator (listdir : List String → List String)
    (look_for : List String) (d : List String) : Bool :=
  (listdir d).any (fun i => look_for.contains i)

/-- The `while directory.parent != directory` loop of
`find_project_directory`.  The root directory is `[]` (its parent equals
itself, so the loop exits there and raises); for a non-root directory the
loop returns it if it contains an indicator and otherwise moves to the
parent (`dropLast`). -/
def find_project_directory_from (listdir : List String → List String)
    (look_for : List String) (start : String) :
    List String → Except String (List String)
  | [] => Except.error (start ++ " does not look like a project subdirectory")
  | x :: xs =>
    if has_indicator listdir look_for (x :: xs) then Except.ok (x :: xs)
    else find_project_directory_from listdir look_for start (x :: xs).dropLast
termination_by d => d.length
decreasing_by simp [List.length_dropLast]

/-- `find_project_directory(start, look_for)`: resolve `start` to an
absolute directory (`path.path(start).abspath()` is the external `abspath`
parameter), default `look_for` to `DEFAULT_PROJECT_INDICATORS`, then search
upward. -/
def find_project_directory (listdir : List String → List String)
    (abspath : String → List String) (start : String)
    (look_for : Option (List String)) : Except String (List String) :=
  let lf := look_for.getD DEFAULT_PROJECT_INDICATORS
  find_project_directory_from listdir lf start (abspath start)

/-- The directories the loop examines, in order: the start directory and
its proper ancestors, excluding the root. -/
def searched_dirs : List String → List (List String)
  | [] => []
  | x :: xs => (x :: xs) :: searched_dirs (x :: xs).dropLast
termination_by d => d.length
decreasing_by simp [List.length_dropLast]

/-- `get_project_name`: `path.path(working_dir).name`, the trailing path
component of the working directory. -/
def get_project_name (working_dir : List String) : String :=
  working_dir.getLastD ("")

/-! ## EventScheduler's timer queue (`sched.scheduler` inside
`EventScheduler`) -/

/-- A pending timer in the shared `sched` queue: the opaque handle returned
by `sched.enter` (modelled as a fresh id), the delay it was armed with, and
the watcher whose bound `build` method it will call (identified by the
watcher's name — registry keys are names, so names identify watchers). -/
structure SEvent where
  id : Nat
  delay : Nat
  callback : String
  deriving DecidableEq, Repr

/-- The state of the timer queue owned by `EventScheduler`: the pending
events and the next fresh handle.  `sched.cancel` removes an event from
the queue; `sched.enter` appends a fresh one. -/
structure SchedState where
  queue : List SEvent
  nextId : Nat
  deriving DecidableEq, Repr

namespace EventScheduler

/-- `EventScheduler.schedule(event, delay, function)`: if `event` is not
None, cancel it (`sched.cancel` removes that event from the queue — ids
are unique, so removing every event with that id removes exactly it); then
`sched.enter(delay, 1, function, [])` arms a fresh timer; the new event is
returned as the new handle. -/
def schedule (s : SchedState) (event : Option Nat) (delay : Nat)
    (callback : String) : Nat × SchedState :=
  let q := match event with
    | some e => s.queue.filter (fun x => x.id ≠ e)
    | none => s.queue
  (s.nextId, ⟨q ++ [⟨s.nextId, delay, callback⟩], s.nextId + 1⟩)

end EventScheduler

/-! ## ProjectWatcher -/

/-- The per-project state of `ProjectWatcher`: `_event` (the pending timer
handle, None when no build is queued), the project name, the working
directory, `_config`, `_last_status` (initially the pair `(None, None)`,
modelled as `none`; after a build the returned status pair), and the
watchdog watch handle (identified by the watched directory). -/
structure ProjectWatcher where
  event : Option Nat
  name : String
  working_dir : List String
  config : ProjectConfig
  last_status : Option (Bool × Option CmdResult)
  watch : List String
  deriving DecidableEq, Repr

namespace ProjectWatcher

/-- `ProjectWatcher.__init__`: `_event = None`, derive the name from the
working directory, store the config, no last status yet, and register a
recursive watch for the working directory with the observer (the observer
is modelled as the list of watched directories). -/
def create (cfg : ProjectConfig) (working_dir : List String)
    (observer : List (List String)) : ProjectWatcher × List (List String) :=
  (⟨none, get_project_name working_dir, working_dir,
     ProjectConfig.ofUser cfg, none, working_dir⟩,
   observer ++ [working_dir])

/-- `ProjectWatcher.set_config`: `self._config =
config.ProjectConfig(user_config)` — the only field assigned. -/
def set_config (w : ProjectWatcher) (user_config : ProjectConfig) :
    ProjectWatcher :=
  { w with config := ProjectConfig.ofUser user_config }

/-- The `script` property: `self._config['script']`. -/
def script (w : ProjectWatcher) : List String := w.config.script

/-- `ProjectWatcher.schedule_build(timeout=None)`: default the timeout to
`self._config['build_timeout']`, then `self._event =
self._scheduler.schedule(self._event, timeout, self.build)`. -/
def schedule_build (w : ProjectWatcher) (s : SchedState)
    (timeout : Option Nat) : ProjectWatcher × SchedState :=
  let t := timeout.getD w.config.build_timeout
  let (h, s') := EventScheduler.schedule s w.event t w.name
  ({ w with event := some h }, s')

/-- `ProjectWatcher.on_any_event`: any filesystem event calls
`schedule_build()` with the configured timeout. -/
def on_any_event (w : ProjectWatcher) (s : SchedState) :
    ProjectWatcher × SchedState :=
  w.schedule_build s none

/-- `ProjectWatcher.build` (the timer callback): clear `_event`, run the
script, then `_show_notification(status)` (which also stores
`_last_status`).  When the script was empty the status carries no result
object and the Python `_show_notification` would raise an AttributeError
on `result.stdout` before updating `_last_status`; no notification is
emitted in that case (`none`). -/
def build (runCmd : List String → String → CmdResult) (w : ProjectWatcher) :
    ProjectWatcher × Option (String × String) :=
  let w1 := { w with event := none }
  let status := ProjectBuilder.execute_script runCmd w1.working_dir w1.script
  match status.2 with
  | some r => ({ w1 with last_status := some status },
               some (show_notification w1.name status.1 r))
  | none => (w1, none)

end ProjectWatcher

/-- The scheduler worker firing a watcher's pending timer: `sched.run`
pops the due event off the queue and invokes the callback, which is the
watcher's `build`. -/
def fire_timer (runCmd : List String → String → CmdResult) (s : SchedState)
    (w : ProjectWatcher) (h : Nat) : SchedState × ProjectWatcher :=
  ({ s with queue := s.queue.filter (fun e => e.id ≠ h) },
   (ProjectWatcher.build runCmd w).1)

/-- The pending timers belonging to one watcher. -/
def owned (q : List SEvent) (name : String) : List SEvent :=
  q.filter (fun e => e.callback = name)

/-- Handles in the queue are always older than the next fresh handle. -/
def sched_wf (s : SchedState) : Prop :=
  ∀ e ∈ s.queue, e.id < s.nextId

/-- The debounce invariant of C2: the handles of the pending timers owned
by the watcher are exactly the content of its `_event` field — no timer
when `_event` is None, exactly the one named timer when it is a handle. -/
def single_timer_inv (s : SchedState) (w : ProjectWatcher) : Prop :=
  (owned s.queue w.name).map SEvent.id = w.event.toList

/-! ## WatsonServer (daemon registry) -/

/-- The daemon state the claims touch: the project registry keyed by
project name (a Python dict: an association list with unique keys), the
shared scheduler queue, and the watchdog observer's list of watched
directories. -/
structure WatsonServer where
  projects : List (String × ProjectWatcher)
  sched : SchedState
  observer : List (List String)
  deriving DecidableEq, Repr

/-- Python dict read (`name in dict` / `dict[name]`), on the association
list that models the registry. -/
def lookup_assoc : List (String × ProjectWatcher) → String → Option ProjectWatcher
  | [], _ => none
  | p :: rest, k => if p.1 = k then some p.2 else lookup_assoc rest k

/-- In-place value update of a Python dict entry: every entry whose key
matches gets the new value; keys and order are unchanged. -/
def update_assoc (l : List (String × ProjectWatcher)) (k : String)
    (v : ProjectWatcher) : List (String × ProjectWatcher) :=
  l.map (fun p => if p.1 = k then (k, v) else p)

namespace WatsonServer

/-- `WatsonServer.add_project(working_dir, config)`: key the registry by
`get_project_name(working_dir)`; if absent, construct a `ProjectWatcher`
(which registers the watch) and store it; otherwise `set_config` on the
stored watcher.  Either way, finish with
`self._projects[project_name].schedule_build(0)`. -/
def add_project (srv : WatsonServer) (working_dir : List String)
    (cfg : ProjectConfig) : WatsonServer :=
  let project_name := get_project_name working_dir
  match lookup_assoc srv.projects project_name with
  | none =>
    let (w, obs') := ProjectWatcher.create cfg working_dir srv.observer
    let (w', s') := w.schedule_build srv.sched (some 0)
    { projects := srv.projects ++ [(project_name, w')],
      sched := s', observer := obs' }
  | some w =>
    let w1 := w.set_config cfg
    let (w', s') := w1.schedule_build srv.sched (some 0)
    { projects := update_assoc srv.projects project_name w',
      sched := s', observer := srv.observer }

end WatsonServer

/-! ## The scheduler worker as a transition system
(`EventScheduler.run` / `stop` / `schedule` / `join`) -/

/-- Where the worker thread of `EventScheduler.run` is: inside
`self._sched.run()` (running), blocked in `self._condition.wait()`
(waiting), or past the loop with `_join_event` set (terminated). -/
inductive WorkerPhase
  | running
  | waiting
  | terminated
  deriving DecidableEq, Repr

/-- The observable state of one `EventScheduler`: the pending timer queue
(event handles, in due order; delays are abstracted away — every pending
event eventually becomes due), the fresh-handle counter, the
`_is_finished` flag, the worker phase, the `_join_event` flag and the log
of callbacks that have been executed. -/
structure SchedulerState where
  queue : List Nat
  nextId : Nat
  is_finished : Bool
  phase : WorkerPhase
  join_event : Bool
  executed : List Nat
  deriving DecidableEq, Repr

/-- One step of the `EventScheduler` system.

* `schedule`: a caller arms a new timer (`schedule` enters an event and
  notifies the condition).
* `stop`: a caller runs `EventScheduler.stop`, which only sets
  `_is_finished` and notifies — it removes nothing from the queue.
* `fire`: the worker, inside `self._sched.run()`, pops the next due event
  and executes its callback; `sched.run` does not consult `_is_finished`.
* `empty_finished` / `empty_wait`: `self._sched.run()` returns once the
  queue is empty; the loop then exits (setting `_join_event`) when
  `_is_finished` is set, else the worker blocks on the condition.
* `wake_finished` / `wake_continue`: a notified waiting worker re-checks
  the loop condition: it exits (setting `_join_event`) when `_is_finished`
  is set, else it re-enters `self._sched.run()`. -/
inductive SchedulerStep : SchedulerState → SchedulerState → Prop
  | schedule (s : SchedulerState) :
      SchedulerStep s
        { s with queue := s.queue ++ [s.nextId], nextId := s.nextId + 1 }
  | stop (s : SchedulerState) :
      SchedulerStep s { s with is_finished := true }
  | fire (s : SchedulerState) (e : Nat) (rest : List Nat) :
      s.phase = WorkerPhase.running → s.queue = e :: rest →
      SchedulerStep s
        { s with queue := rest, executed := s.executed ++ [e] }
  | empty_finished (s : SchedulerState) :
      s.phase = WorkerPhase.running → s.queue = [] → s.is_finished = true →
      SchedulerStep s
        { s with phase := WorkerPhase.terminated, join_event := true }
  | empty_wait (s : SchedulerState) :
      s.phase = WorkerPhase.running → s.queue = [] → s.is_finished = false →
      SchedulerStep s { s with phase := WorkerPhase.waiting }
  | wake_finished (s : SchedulerState) :
      s.phase = WorkerPhase.waiting → s.is_finished = true →
      SchedulerStep s
        { s with phase := WorkerPhase.terminated, join_event := true }
  | wake_continue (s : SchedulerState) :
      s.phase = WorkerPhase.waiting → s.is_finished = false →
      SchedulerStep s { s with phase := WorkerPhase.running }

/-- Zero or more scheduler steps. -/
def SchedulerSteps : SchedulerState → SchedulerState → Prop :=
  Relation.ReflTransGen SchedulerStep

/-! ## Concrete collaborators for the witnesses -/

/-- A concrete shell environment: the command "false_cmd" fails with
stderr "boom", every other command succeeds with stdout "ok". -/
def demoRun : List String → String → CmdResult :=
  fun _ c =>
    if c = "false_cmd" then ⟨"", "boom", false⟩ else ⟨"ok", "", true⟩

/-- A concrete filesystem: `/home/proj` contains `setup.py`, every other
directory (the root included) is empty. -/
def demoListdir : List String → List String :=
  fun d => if d = ["home", "proj"] then ["setup.py"] else []

/-- A concrete `abspath`: every start string resolves to
`/home/proj/sub`. -/
def demoAbs : String → List String :=
  fun _ => ["home", "proj", "sub"]

/-- A filesystem whose only indicator entry lives in the root directory. -/
def demoRootFS : List String → List String :=
  fun d => if d = ([] : List String) then ["setup.py"] else []

/-- The empty filesystem: every directory listing is empty. -/
def demoEmptyFS : List String → List String :=
  fun _ => []

/-- A concrete scheduler queue holding one pending timer with handle 3 for
the project "proj". -/
def demoSched : SchedState := ⟨[⟨3, 5, "proj"⟩], 4⟩

/-- A concrete watcher for the project "proj" whose pending timer is
handle 3. -/
def demoWatcher : ProjectWatcher :=
  ⟨some 3, "proj", ["home", "proj"], ⟨["make"], 5⟩, none, ["home", "proj"]⟩

/-- A concrete daemon with an empty registry, empty queue and no watched
directories. -/
def demoServer : WatsonServer := ⟨[], ⟨[], 0⟩, []⟩

end Watson

namespace Watson

/-! ## Theorems -/

namespace ProjectBuilder

theorem execute_loop_cons_ok (runCmd : List String → String → CmdResult)
    (wd : List String) (c : String) (rest : List String) (r0 : Option CmdResult)
    (hc : (runCmd wd c).succeeded = true) :
    execute_loop runCmd wd true r0 (c :: rest) =
      execute_loop runCmd wd true (some (runCmd wd c)) rest := by
  rw [execute_loop]
  simp [hc]

theorem executed_commands_cons_ok (runCmd : List String → String → CmdResult)
    (wd : List String) (c : String) (rest : List String)
    (hc : (runCmd wd c).succeeded = true) :
    executed_commands runCmd wd true (c :: rest) =
      c :: executed_commands runCmd wd true rest := by
  rw [executed_commands]
  simp [hc]

theorem execute_loop_all_ok (runCmd : List String → String → CmdResult)
    (wd : List String) (script : List String) (r0 : Option CmdResult)
    (hne : script ≠ [])
    (hok : ∀ c ∈ script, (runCmd wd c).succeeded = true) :
    execute_loop runCmd wd true r0 script =
      (true, (script.map (runCmd wd)).getLast?) := by
  induction script generalizing r0 with
  | nil => exact absurd rfl hne
  | cons c rest ih =>
    have hc : (runCmd wd c).succeeded = true := hok c (List.mem_cons_self c rest)
    rw [execute_loop_cons_ok runCmd wd c rest r0 hc]
    cases rest with
    | nil => simp [execute_loop]
    | cons d rest' =>
      have hrest : ∀ x ∈ d :: rest', (runCmd wd x).succeeded = true := by
        intro x hx
        exact hok x (List.mem_cons_of_mem c hx)
      rw [ih (some (runCmd wd c)) (by simp) hrest]
      simp [List.getLast?_cons_cons]

theorem execute_loop_first_fail (runCmd : List String → String → CmdResult)
    (wd : List String) (pre : List String) (c : String) (post : List String)
    (r0 : Option CmdResult)
    (hpre : ∀ x ∈ pre, (runCmd wd x).succeeded = true)
    (hc : (runCmd wd c).succeeded = false) :
    execute_loop runCmd wd true r0 (pre ++ c :: post) =
      (false, some (runCmd wd c)) := by
  induction pre generalizing r0 with
  | nil => simp [execute_loop, hc]
  | cons p pre' ih =>
    have hp : (runCmd wd p).succeeded = true := hpre p (List.mem_cons_self p pre')
    have hpre' : ∀ x ∈ pre', (runCmd wd x).succeeded = true := by
      intro x hx
      exact hpre x (List.mem_cons_of_mem p hx)
    rw [List.cons_append, execute_loop_cons_ok runCmd wd p _ r0 hp]
    exact ih (some (runCmd wd p)) hpre'

theorem executed_commands_all_ok (runCmd : List String → String → CmdResult)
    (wd : List String) (script : List String)
    (hok : ∀ c ∈ script, (runCmd wd c).succeeded = true) :
    executed_commands runCmd wd true script = script := by
  induction script with
  | nil => rfl
  | cons c rest ih =>
    have hc : (runCmd wd c).succeeded = true := hok c (List.mem_cons_self c rest)
    have hrest : ∀ x ∈ rest, (runCmd wd x).succeeded = true := by
      intro x hx
      exact hok x (List.mem_cons_of_mem c hx)
    rw [executed_commands_cons_ok runCmd wd c rest hc, ih hrest]

theorem executed_commands_first_fail (runCmd : List String → String → CmdResult)
    (wd : List String) (pre : List String) (c : String) (post : List String)
    (hpre : ∀ x ∈ pre, (runCmd wd x).succeeded = true)
    (hc : (runCmd wd c).succeeded = false) :
    executed_commands runCmd wd true (pre ++ c :: post) = pre ++ [c] := by
  induction pre with
  | nil => simp [executed_commands, hc]
  | cons p pre' ih =>
    have hp : (runCmd wd p).succeeded = true := hpre p (List.mem_cons_self p pre')
    have hpre' : ∀ x ∈ pre', (runCmd wd x).succeeded = true := by
      intro x hx
      exact hpre x (List.mem_cons_of_mem p hx)
    rw [List.cons_append, executed_commands_cons_ok runCmd wd p _ hp, ih hpre']
    simp

end ProjectBuilder

/-- C1: `execute_script` runs the commands in order; at the first failing
command (all before it succeeding) it returns `succeeded = false` with that
command's captured result, having executed exactly the commands up to and
including the failing one; if the script is non-empty and every command
succeeds it returns success with the result of the last command, having
executed every command. -/
theorem C1_buildrunner_short_circuit
    (runCmd : List String → String → CmdResult) (wd : List String) :
    (∀ pre c post,
       (∀ x ∈ pre, (runCmd wd x).succeeded = true) →
       (runCmd wd c).succeeded = false →
       ProjectBuilder.execute_script runCmd wd (pre ++ c :: post) =
           (false, some (runCmd wd c)) ∧
         ProjectBuilder.executed_commands runCmd wd true (pre ++ c :: post) =
           pre ++ [c])
  ∧ (∀ script : List String, script ≠ [] →
       (∀ c ∈ script, (runCmd wd c).succeeded = true) →
       ProjectBuilder.execute_script runCmd wd script =
           (true, (script.map (runCmd wd)).getLast?) ∧
         ProjectBuilder.executed_commands runCmd wd true script = script) := by
  constructor
  · intro pre c post hpre hc
    exact ⟨ProjectBuilder.execute_loop_first_fail runCmd wd pre c post none hpre hc,
           ProjectBuilder.executed_commands_first_fail runCmd wd pre c post hpre hc⟩
  · intro script hne hok
    exact ⟨ProjectBuilder.execute_loop_all_ok runCmd wd script none hne hok,
           ProjectBuilder.executed_commands_all_ok runCmd wd script hok⟩

/-- Witness for C1 at the spec's own example script
`["true_cmd", "false_cmd", "true_cmd2"]`: the run stops at "false_cmd",
reports its output, and "true_cmd2" never runs; and on an all-succeeding
script the last command's result is returned. -/
theorem C1_buildrunner_short_circuit_witness :
    (ProjectBuilder.execute_script demoRun ["home"]
         (["true_cmd"] ++ "false_cmd" :: ["true_cmd2"]) =
        (false, some (demoRun ["home"] "false_cmd")) ∧
      ProjectBuilder.executed_commands demoRun ["home"] true
         (["true_cmd"] ++ "false_cmd" :: ["true_cmd2"]) =
        ["true_cmd"] ++ ["false_cmd"]) ∧
    (ProjectBuilder.execute_script demoRun ["home"] ["true_cmd"] =
        (true, ((["true_cmd"]).map (demoRun ["home"])).getLast?) ∧
      ProjectBuilder.executed_commands demoRun ["home"] true ["true_cmd"] =
        ["true_cmd"]) :=
  ⟨(C1_buildrunner_short_circuit demoRun ["home"]).1
      ["true_cmd"] "false_cmd" ["true_cmd2"]
      (by intro x hx; fin_cases hx; decide) (by decide),
   (C1_buildrunner_short_circuit demoRun ["home"]).2
      ["true_cmd"] (by decide) (by intro c hc; fin_cases hc; decide)⟩

/-- C4 counterexample: applied to an empty script, `execute_script` does
not return "success with empty output" — no result object is produced at
all (the result component is `none`, the Python `None`), so there are no
output strings, empty or otherwise. -/
theorem C4_empty_script_counterexample :
    ¬ successWithEmptyOutput
        (ProjectBuilder.execute_script demoRun ["home"] []) := by
  intro h
  rcases h with ⟨-, r, hr, -⟩
  simp [ProjectBuilder.execute_script, ProjectBuilder.execute_loop] at hr

/-- C4 amended: applied to an empty script, `execute_script` returns
success with no captured result at all: `(true, none)` — the loop body
never runs and `result` keeps its initial `None`. -/
theorem C4_empty_script_returns_success_none
    (runCmd : List String → String → CmdResult) (wd : List String) :
    ProjectBuilder.execute_script runCmd wd [] = (true, none) := rfl

/-- C5: the "No output" placeholder is unreachable.  For a failed build
with empty stdout and empty stderr the code joins the two stripped empty
strings with a line break, producing the one-character string "\n" — which
is truthy in Python — so the emitted body is "\n", not the placeholder
"No output" the spec promises. -/
theorem C5_placeholder_dead_code :
    ProjectWatcher.show_notification ("proj") false ⟨"", "", false⟩ =
        (("proj failed"), ("\n")) ∧
      (("\n") : String) ≠ ("No output") := by
  constructor
  · rfl
  · decide

/-! ### Directory discovery -/

/-- Every directory the loop examines is non-root. -/
theorem searched_dirs_ne_nil (d : List String) :
    ∀ e ∈ searched_dirs d, e ≠ [] := by
  induction d using searched_dirs.induct with
  | case1 =>
    intro e he
    rw [searched_dirs] at he
    simp at he
  | case2 x xs ih =>
    intro e he
    rw [searched_dirs] at he
    rcases List.mem_cons.mp he with h | h
    · subst h
      simp
    · exact ih e h

theorem find_project_directory_from_cases
    (listdir : List String → List String) (look_for : List String)
    (start : String) (d : List String) :
    (∃ r, find_project_directory_from listdir look_for start d = Except.ok r ∧
        has_indicator listdir look_for r = true ∧ r ∈ searched_dirs d)
  ∨ (find_project_directory_from listdir look_for start d =
        Except.error (start ++ " does not look like a project subdirectory") ∧
      ∀ e ∈ searched_dirs d, has_indicator listdir look_for e = false) := by
  induction d using find_project_directory_from.induct listdir look_for start with
  | case1 =>
    right
    refine ⟨by rw [find_project_directory_from], ?_⟩
    intro e he
    rw [searched_dirs] at he
    simp at he
  | case2 x xs hind =>
    left
    refine ⟨x :: xs, ?_, hind, ?_⟩
    · rw [find_project_directory_from]
      simp [hind]
    · rw [searched_dirs]
      exact List.mem_cons_self _ _
  | case3 x xs hind ih =>
    have hstep : find_project_directory_from listdir look_for start (x :: xs) =
        find_project_directory_from listdir look_for start (x :: xs).dropLast := by
      rw [find_project_directory_from]
      simp [hind]
    rcases ih with ⟨r, hr, hir, hmem⟩ | ⟨herr, hall⟩
    · left
      refine ⟨r, by rw [hstep]; exact hr, hir, ?_⟩
      rw [searched_dirs]
      exact List.mem_cons_of_mem _ hmem
    · right
      refine ⟨by rw [hstep]; exact herr, ?_⟩
      intro e he
      rw [searched_dirs] at he
      rcases List.mem_cons.mp he with he | he
      · subst he
        simpa using hind
      · exact hall e he

theorem find_project_directory_ok_spec
    (listdir : List String → List String) (abspath : String → List String)
    (start : String) (look_for : Option (List String)) (d : List String)
    (hd : find_project_directory listdir abspath start look_for = Except.ok d) :
    has_indicator listdir (look_for.getD DEFAULT_PROJECT_INDICATORS) d = true ∧
      d ∈ searched_dirs (abspath start) := by
  rcases find_project_directory_from_cases listdir
      (look_for.getD DEFAULT_PROJECT_INDICATORS) start (abspath start) with
    ⟨r, hr, hir, hmem⟩ | ⟨herr, -⟩
  · rw [find_project_directory] at hd
    rw [hd] at hr
    injection hr with hr
    subst hr
    exact ⟨hir, hmem⟩
  · rw [find_project_directory] at hd
    rw [hd] at herr
    exact absurd herr (by simp)

theorem find_project_directory_error_iff
    (listdir : List String → List String) (abspath : String → List String)
    (start : String) (look_for : Option (List String)) :
    find_project_directory listdir abspath start look_for =
        Except.error (start ++ " does not look like a project subdirectory") ↔
      ∀ d ∈ searched_dirs (abspath start),
        has_indicator listdir (look_for.getD DEFAULT_PROJECT_INDICATORS) d = false := by
  rcases find_project_directory_from_cases listdir
      (look_for.getD DEFAULT_PROJECT_INDICATORS) start (abspath start) with
    ⟨r, hr, hir, hmem⟩ | ⟨herr, hall⟩
  · constructor
    · intro herr0
      rw [find_project_directory] at herr0
      rw [herr0] at hr
      exact absurd hr (by simp)
    · intro hall
      exact absurd hir (by simp [hall r hmem])
  · constructor
    · intro _
      exact hall
    · intro _
      exact herr

theorem find_project_directory_total
    (listdir : List String → List String) (abspath : String → List String)
    (start : String) (look_for : Option (List String)) :
    (∃ d, find_project_directory listdir abspath start look_for = Except.ok d)
      ∨ find_project_directory listdir abspath start look_for =
          Except.error (start ++ " does not look like a project subdirectory") := by
  rcases find_project_directory_from_cases listdir
      (look_for.getD DEFAULT_PROJECT_INDICATORS) start (abspath start) with
    ⟨r, hr, -, -⟩ | ⟨herr, -⟩
  · exact Or.inl ⟨r, hr⟩
  · exact Or.inr herr

/-- The loop never calls `listdir` on the root: two filesystems that agree
on every non-root directory give the same search result. -/
theorem find_project_directory_from_congr
    (listdir listdir2 : List String → List String) (look_for : List String)
    (start : String) (d : List String)
    (hagree : ∀ e, e ≠ [] → listdir e = listdir2 e) :
    find_project_directory_from listdir look_for start d =
      find_project_directory_from listdir2 look_for start d := by
  induction d using find_project_directory_from.induct listdir look_for start with
  | case1 => rw [find_project_directory_from, find_project_directory_from]
  | case2 x xs hind =>
    have hind2 : has_indicator listdir2 look_for (x :: xs) = true := by
      rw [has_indicator, ← hagree (x :: xs) (by simp)]
      exact hind
    rw [find_project_directory_from, find_project_directory_from]
    simp [hind, hind2]
  | case3 x xs hind ih =>
    have hind2 : has_indicator listdir2 look_for (x :: xs) = false := by
      rw [has_indicator, ← hagree (x :: xs) (by simp)]
      simpa [has_indicator] using hind
    rw [find_project_directory_from, find_project_directory_from]
    simp only [hind2, Bool.false_eq_true, if_false]
    simp only [show has_indicator listdir look_for (x :: xs) = false by
      simpa [has_indicator] using hind, Bool.false_eq_true, if_false]
    exact ih

/-- C7: `find_project_directory` either returns a searched directory that
contains one of the indicator entries, or fails with the WatsonError
message saying the start path does not look like a project subdirectory;
it fails exactly when no searched directory contains an indicator; and one
of the two outcomes always happens. -/
theorem C7_find_project_directory_spec
    (listdir : List String → List String) (abspath : String → List String)
    (start : String) (look_for : Option (List String)) :
    (∀ d, find_project_directory listdir abspath start look_for = Except.ok d →
        has_indicator listdir (look_for.getD DEFAULT_PROJECT_INDICATORS) d = true ∧
        d ∈ searched_dirs (abspath start))
  ∧ (find_project_directory listdir abspath start look_for =
        Except.error (start ++ " does not look like a project subdirectory") ↔
      ∀ d ∈ searched_dirs (abspath start),
        has_indicator listdir (look_for.getD DEFAULT_PROJECT_INDICATORS) d = false)
  ∧ ((∃ d, find_project_directory listdir abspath start look_for = Except.ok d)
      ∨ find_project_directory listdir abspath start look_for =
          Except.error (start ++ " does not look like a project subdirectory")) :=
  ⟨find_project_directory_ok_spec listdir abspath start look_for,
   find_project_directory_error_iff listdir abspath start look_for,
   find_project_directory_total listdir abspath start look_for⟩

/-- Witness for C7: starting from `/home/proj/sub` on the concrete
filesystem, the search returns `/home/proj`, which contains `setup.py` and
is among the searched directories. -/
theorem C7_find_project_directory_spec_witness :
    has_indicator demoListdir ((none : Option (List String)).getD
        DEFAULT_PROJECT_INDICATORS) ["home", "proj"] = true ∧
      ["home", "proj"] ∈ searched_dirs (demoAbs ("/home/proj/sub")) :=
  (C7_find_project_directory_spec demoListdir demoAbs ("/home/proj/sub") none).1
    ["home", "proj"] (by
      simp [find_project_directory, find_project_directory_from, has_indicator,
        demoListdir, demoAbs, DEFAULT_PROJECT_INDICATORS, CONFIG_FILENAME,
        List.dropLast])

/-- C10: the loop never examines the filesystem root.  First: if every
searched (non-root) directory lacks an indicator then the function raises,
even when the root itself does contain an indicator.  Second: the result
does not depend on the root's directory listing at all. -/
theorem C10_root_never_examined
    (listdir listdir2 : List String → List String)
    (abspath : String → List String) (start : String)
    (look_for : Option (List String)) :
    (has_indicator listdir (look_for.getD DEFAULT_PROJECT_INDICATORS) [] = true →
     (∀ d ∈ searched_dirs (abspath start),
        has_indicator listdir (look_for.getD DEFAULT_PROJECT_INDICATORS) d = false) →
     find_project_directory listdir abspath start look_for =
       Except.error (start ++ " does not look like a project subdirectory"))
  ∧ ((∀ d, d ≠ [] → listdir d = listdir2 d) →
     find_project_directory listdir abspath start look_for =
       find_project_directory listdir2 abspath start look_for) := by
  constructor
  · intro _ hall
    exact (find_project_directory_error_iff listdir abspath start look_for).mpr hall
  · intro hagree
    rw [find_project_directory, find_project_directory]
    exact find_project_directory_from_congr listdir listdir2
      (look_for.getD DEFAULT_PROJECT_INDICATORS) start (abspath start) hagree

/-- Witness for C10: starting from `/home/proj/sub` on the filesystem whose
only indicator is in the root, the search raises the WatsonError — the root
is never examined — and replacing the root's listing by an empty one does
not change the result. -/
theorem C10_root_never_examined_witness :
    find_project_directory demoRootFS demoAbs ("/home/proj/sub") none =
        Except.error (("/home/proj/sub") ++
          " does not look like a project subdirectory") ∧
      find_project_directory demoRootFS demoAbs ("/home/proj/sub") none =
        find_project_directory demoEmptyFS demoAbs ("/home/proj/sub") none :=
  ⟨(C10_root_never_examined demoRootFS demoEmptyFS demoAbs ("/home/proj/sub")
      none).1 (by decide) (by
        intro d hd
        have hne := searched_dirs_ne_nil (demoAbs ("/home/proj/sub")) d hd
        simp [has_indicator, demoRootFS, hne]),
   (C10_root_never_examined demoRootFS demoEmptyFS demoAbs ("/home/proj/sub")
      none).2 (by intro d hd; simp [demoRootFS, demoEmptyFS, hd])⟩

/-! ### Scheduler queue and debounce invariant -/

theorem owned_append (q1 q2 : List SEvent) (name : String) :
    owned (q1 ++ q2) name = owned q1 name ++ owned q2 name := by
  simp [owned, List.filter_append]

theorem owned_filter (q : List SEvent) (name : String) (p : SEvent → Bool) :
    owned (q.filter p) name = (owned q name).filter p := by
  simp only [owned, List.filter_filter]
  congr 1
  funext e
  rw [Bool.and_comm]

theorem map_id_singleton {l : List SEvent} {h : Nat}
    (hl : l.map SEvent.id = [h]) : ∃ e, l = [e] ∧ e.id = h := by
  cases l with
  | nil => simp at hl
  | cons e t =>
    cases t with
    | nil =>
      simp at hl
      exact ⟨e, rfl, hl⟩
    | cons e2 t2 => simp at hl

/-- `schedule_build` written out: the new handle is the scheduler's fresh
id, the queue first drops the watcher's previous handle (when set) and
then appends the freshly armed event. -/
theorem schedule_build_eq (w : ProjectWatcher) (s : SchedState)
    (timeout : Option Nat) :
    w.schedule_build s timeout =
      ({ w with event := some s.nextId },
       ⟨(match w.event with
          | some e => s.queue.filter (fun x => x.id ≠ e)
          | none => s.queue) ++
          [⟨s.nextId, timeout.getD w.config.build_timeout, w.name⟩],
        s.nextId + 1⟩) := rfl

theorem build_fst_event (runCmd : List String → String → CmdResult)
    (w : ProjectWatcher) :
    ((ProjectWatcher.build runCmd w).1).event = none := by
  simp only [ProjectWatcher.build]
  split <;> rfl

theorem build_fst_name (runCmd : List String → String → CmdResult)
    (w : ProjectWatcher) :
    ((ProjectWatcher.build runCmd w).1).name = w.name := by
  simp only [ProjectWatcher.build]
  split <;> rfl

/-- C2: the debounce operations preserve the single-outstanding-timer
invariant.  `schedule_build` hands the current handle to
`EventScheduler.schedule`, which cancels the existing pending timer (if
any) and arms exactly one fresh timer carrying the full delay, owned by
the watcher; and when the timer fires, `build` clears the handle and the
watcher owns no pending timer. -/
theorem C2_single_timer_invariant (runCmd : List String → String → CmdResult)
    (s : SchedState) (w : ProjectWatcher) (timeout : Option Nat)
    (hwf : sched_wf s) (hinv : single_timer_inv s w) :
    (single_timer_inv (w.schedule_build s timeout).2
        (w.schedule_build s timeout).1
      ∧ sched_wf (w.schedule_build s timeout).2
      ∧ owned (w.schedule_build s timeout).2.queue w.name =
          [⟨s.nextId, timeout.getD w.config.build_timeout, w.name⟩])
  ∧ (∀ h, w.event = some h →
      single_timer_inv (fire_timer runCmd s w h).1 (fire_timer runCmd s w h).2
      ∧ sched_wf (fire_timer runCmd s w h).1) := by
  constructor
  · have hq : owned ((match w.event with
        | some e => s.queue.filter (fun x => x.id ≠ e)
        | none => s.queue) ++
        [⟨s.nextId, timeout.getD w.config.build_timeout, w.name⟩]) w.name =
        [⟨s.nextId, timeout.getD w.config.build_timeout, w.name⟩] := by
      cases hev : w.event with
      | none =>
        rw [single_timer_inv, hev] at hinv
        have hx : (owned s.queue w.name).map SEvent.id = [] := by
          simpa using hinv
        have hnil : owned s.queue w.name = [] := List.map_eq_nil_iff.mp hx
        rw [owned_append, hnil]
        simp [owned, List.filter]
      | some h0 =>
        rw [single_timer_inv, hev] at hinv
        obtain ⟨e0, he0, hid⟩ := map_id_singleton (by simpa using hinv)
        rw [owned_append, owned_filter, he0]
        simp [owned, List.filter, hid]
    refine ⟨?_, ?_, ?_⟩
    · rw [schedule_build_eq, single_timer_inv]
      show (owned _ w.name).map SEvent.id = (some s.nextId).toList
      rw [hq]
      rfl
    · rw [schedule_build_eq]
      intro e he
      rcases List.mem_append.mp he with he | he
      · have hmem : e ∈ s.queue := by
          cases hev : w.event with
          | none =>
            rw [hev] at he
            exact he
          | some h0 =>
            rw [hev] at he
            exact (List.mem_filter.mp he).1
        exact Nat.lt_succ_of_lt (hwf e hmem)
      · have : e = ⟨s.nextId, timeout.getD w.config.build_timeout, w.name⟩ := by
          simpa using he
        subst this
        exact Nat.lt_succ_self _
    · rw [schedule_build_eq]
      exact hq
  · intro h hev
    rw [single_timer_inv, hev] at hinv
    obtain ⟨e0, he0, hid⟩ := map_id_singleton (by simpa using hinv)
    constructor
    · rw [single_timer_inv, fire_timer]
      show (owned (s.queue.filter _) ((ProjectWatcher.build runCmd w).1).name).map
          SEvent.id = ((ProjectWatcher.build runCmd w).1).event.toList
      rw [build_fst_event, build_fst_name]
      rw [owned_filter, he0]
      simp [hid]
    · intro e he
      rw [fire_timer] at he
      exact hwf e (List.mem_filter.mp he).1

/-- Witness for C2: the concrete watcher with pending handle 3 on the
concrete one-timer queue; scheduling a build re-arms a single timer 4 with
the full configured delay, and firing handle 3 leaves the watcher with no
pending timer. -/
theorem C2_single_timer_invariant_witness :
    (single_timer_inv (demoWatcher.schedule_build demoSched none).2
        (demoWatcher.schedule_build demoSched none).1
      ∧ sched_wf (demoWatcher.schedule_build demoSched none).2
      ∧ owned (demoWatcher.schedule_build demoSched none).2.queue
          demoWatcher.name =
          [⟨demoSched.nextId,
            (none : Option Nat).getD demoWatcher.config.build_timeout,
            demoWatcher.name⟩])
  ∧ (∀ h, demoWatcher.event = some h →
      single_timer_inv (fire_timer demoRun demoSched demoWatcher h).1
          (fire_timer demoRun demoSched demoWatcher h).2
      ∧ sched_wf (fire_timer demoRun demoSched demoWatcher h).1) :=
  C2_single_timer_invariant demoRun demoSched demoWatcher none
    (by
      intro e he
      simp only [demoSched] at he
      simp at he
      subst he
      decide)
    (by rfl)

/-- C8: `set_config` assigns only `_config`: the pending timer handle, the
project name, the working directory, the last build status and the watch
are all unchanged, and the stored configuration becomes the wrapped new
user config.  (The function does not touch the scheduler at all — its type
takes no scheduler state — so an in-flight debounce window is untouched.) -/
theorem C8_set_config_frame (w : ProjectWatcher) (c : ProjectConfig) :
    (w.set_config c).event = w.event ∧
    (w.set_config c).name = w.name ∧
    (w.set_config c).working_dir = w.working_dir ∧
    (w.set_config c).last_status = w.last_status ∧
    (w.set_config c).watch = w.watch ∧
    (w.set_config c).config = ProjectConfig.ofUser c :=
  ⟨rfl, rfl, rfl, rfl, rfl, rfl⟩

/-! ### Registry (dict) lemmas and `add_project` -/

theorem lookup_assoc_append_of_none (l l2 : List (String × ProjectWatcher))
    (k : String) (h : lookup_assoc l k = none) :
    lookup_assoc (l ++ l2) k = lookup_assoc l2 k := by
  induction l with
  | nil => rfl
  | cons p rest ih =>
    rw [lookup_assoc] at h
    by_cases hk : p.1 = k
    · simp [hk] at h
    · rw [if_neg hk] at h
      rw [List.cons_append, lookup_assoc, if_neg hk]
      exact ih h

theorem lookup_assoc_cons_self (k : String) (v : ProjectWatcher)
    (l : List (String × ProjectWatcher)) :
    lookup_assoc ((k, v) :: l) k = some v := by
  rw [lookup_assoc]
  simp

theorem update_assoc_of_none (l : List (String × ProjectWatcher)) (k : String)
    (v : ProjectWatcher) (h : lookup_assoc l k = none) :
    update_assoc l k v = l := by
  induction l with
  | nil => rfl
  | cons p rest ih =>
    rw [lookup_assoc] at h
    by_cases hk : p.1 = k
    · simp [hk] at h
    · rw [if_neg hk] at h
      rw [update_assoc, List.map_cons, if_neg hk]
      rw [update_assoc] at ih
      rw [ih h]

theorem update_assoc_append (l l2 : List (String × ProjectWatcher))
    (k : String) (v : ProjectWatcher) :
    update_assoc (l ++ l2) k v = update_assoc l k v ++ update_assoc l2 k v := by
  simp [update_assoc]

theorem update_assoc_length (l : List (String × ProjectWatcher)) (k : String)
    (v : ProjectWatcher) : (update_assoc l k v).length = l.length := by
  simp [update_assoc]

theorem lookup_assoc_update_self (l : List (String × ProjectWatcher))
    (k : String) (v v0 : ProjectWatcher)
    (h : lookup_assoc l k = some v0) :
    lookup_assoc (update_assoc l k v) k = some v := by
  induction l with
  | nil => simp [lookup_assoc] at h
  | cons p rest ih =>
    by_cases hk : p.1 = k
    · rw [update_assoc, List.map_cons, if_pos hk, lookup_assoc]
      simp
    · rw [lookup_assoc, if_neg hk] at h
      rw [update_assoc, List.map_cons, if_neg hk, lookup_assoc, if_neg hk]
      rw [update_assoc] at ih
      exact ih h

/-- `add_project` on an unregistered name: a watcher is created (watching
the directory), stored under the name, and immediately scheduled with
delay 0. -/
theorem add_project_new (srv : WatsonServer) (wd : List String)
    (cfg : ProjectConfig)
    (h : lookup_assoc srv.projects (get_project_name wd) = none) :
    srv.add_project wd cfg =
      { projects := srv.projects ++
          [(get_project_name wd,
            ⟨some srv.sched.nextId, get_project_name wd, wd,
             ProjectConfig.ofUser cfg, none, wd⟩)],
        sched := ⟨srv.sched.queue ++
            [⟨srv.sched.nextId, 0, get_project_name wd⟩],
          srv.sched.nextId + 1⟩,
        observer := srv.observer ++ [wd] } := by
  simp only [WatsonServer.add_project, h]
  rfl

/-- `add_project` on a registered name: no new watcher, no new watch; the
stored watcher's config is replaced and a delay-0 timer is armed (the
watcher's previous pending handle, if any, is cancelled first). -/
theorem add_project_existing (srv : WatsonServer) (wd : List String)
    (cfg : ProjectConfig) (w : ProjectWatcher)
    (h : lookup_assoc srv.projects (get_project_name wd) = some w) :
    srv.add_project wd cfg =
      { projects := update_assoc srv.projects (get_project_name wd)
          ⟨some srv.sched.nextId, w.name, w.working_dir,
           ProjectConfig.ofUser cfg, w.last_status, w.watch⟩,
        sched := ⟨(match w.event with
            | some e => srv.sched.queue.filter (fun x => x.id ≠ e)
            | none => srv.sched.queue) ++
            [⟨srv.sched.nextId, 0, w.name⟩],
          srv.sched.nextId + 1⟩,
        observer := srv.observer } := by
  simp only [WatsonServer.add_project, h]
  rfl

/-- C6: two `add_project` calls with the same working directory: the first
creates the single watcher (registry grows by one), the second leaves the
registry size unchanged and only replaces the stored watcher's
configuration, and each call arms an immediate delay-0 timer for the
project (the second call cancelling the first call's handle). -/
theorem C6_add_project_idempotent (srv : WatsonServer) (wd : List String)
    (cfg1 cfg2 : ProjectConfig)
    (hnew : lookup_assoc srv.projects (get_project_name wd) = none) :
    ((srv.add_project wd cfg1).projects.length = srv.projects.length + 1)
  ∧ (((srv.add_project wd cfg1).add_project wd cfg2).projects.length =
      (srv.add_project wd cfg1).projects.length)
  ∧ (∃ w2, lookup_assoc
        (((srv.add_project wd cfg1).add_project wd cfg2).projects)
        (get_project_name wd) = some w2 ∧
      w2.config = ProjectConfig.ofUser cfg2 ∧ w2.working_dir = wd)
  ∧ ((⟨srv.sched.nextId, 0, get_project_name wd⟩ : SEvent) ∈
      (srv.add_project wd cfg1).sched.queue)
  ∧ ((⟨(srv.add_project wd cfg1).sched.nextId, 0, get_project_name wd⟩ :
        SEvent) ∈
      ((srv.add_project wd cfg1).add_project wd cfg2).sched.queue)
  ∧ (∀ e ∈ ((srv.add_project wd cfg1).add_project wd cfg2).sched.queue,
      e.id ≠ srv.sched.nextId) := by
  have h1 := add_project_new srv wd cfg1 hnew
  have hlook1 : lookup_assoc ((srv.add_project wd cfg1).projects)
      (get_project_name wd) =
      some ⟨some srv.sched.nextId, get_project_name wd, wd,
        ProjectConfig.ofUser cfg1, none, wd⟩ := by
    rw [h1]
    rw [lookup_assoc_append_of_none _ _ _ hnew]
    exact lookup_assoc_cons_self _ _ _
  have h2 := add_project_existing (srv.add_project wd cfg1) wd cfg2 _ hlook1
  refine ⟨?_, ?_, ?_, ?_, ?_, ?_⟩
  · rw [h1]
    simp
  · rw [h2, h1]
    simp [update_assoc_length]
  · refine ⟨⟨some (srv.add_project wd cfg1).sched.nextId, get_project_name wd,
      wd, ProjectConfig.ofUser cfg2, none, wd⟩, ?_, rfl, rfl⟩
    rw [h2]
    show lookup_assoc (update_assoc ((srv.add_project wd cfg1).projects)
      (get_project_name wd) _) (get_project_name wd) = _
    rw [lookup_assoc_update_self _ _ _ _ hlook1]
  · rw [h1]
    simp
  · rw [h2]
    simp
  · intro e he
    rw [h2] at he
    simp only [] at he
    rcases List.mem_append.mp he with he | he
    · have := (List.mem_filter.mp he).2
      simpa using this
    · have : e = ⟨(srv.add_project wd cfg1).sched.nextId, 0,
          get_project_name wd⟩ := by
        simpa using he
      subst this
      rw [h1]
      simp

/-- Witness for C6: registering `/home/proj` twice on the fresh daemon. -/
theorem C6_add_project_idempotent_witness :
    (((demoServer.add_project ["home", "proj"] ⟨["make"], 5⟩).projects.length =
        demoServer.projects.length + 1))
  ∧ (((demoServer.add_project ["home", "proj"] ⟨["make"], 5⟩).add_project
        ["home", "proj"] ⟨["make", "check"], 7⟩).projects.length =
      (demoServer.add_project ["home", "proj"] ⟨["make"], 5⟩).projects.length)
  ∧ (∃ w2, lookup_assoc
        (((demoServer.add_project ["home", "proj"] ⟨["make"], 5⟩).add_project
          ["home", "proj"] ⟨["make", "check"], 7⟩).projects)
        (get_project_name ["home", "proj"]) = some w2 ∧
      w2.config = ProjectConfig.ofUser ⟨["make", "check"], 7⟩ ∧
      w2.working_dir = ["home", "proj"])
  ∧ ((⟨demoServer.sched.nextId, 0, get_project_name ["home", "proj"]⟩ :
        SEvent) ∈
      (demoServer.add_project ["home", "proj"] ⟨["make"], 5⟩).sched.queue)
  ∧ ((⟨(demoServer.add_project ["home", "proj"] ⟨["make"], 5⟩).sched.nextId, 0,
        get_project_name ["home", "proj"]⟩ : SEvent) ∈
      ((demoServer.add_project ["home", "proj"] ⟨["make"], 5⟩).add_project
        ["home", "proj"] ⟨["make", "check"], 7⟩).sched.queue)
  ∧ (∀ e ∈ ((demoServer.add_project ["home", "proj"] ⟨["make"], 5⟩).add_project
        ["home", "proj"] ⟨["make", "check"], 7⟩).sched.queue,
      e.id ≠ demoServer.sched.nextId) :=
  C6_add_project_idempotent demoServer ["home", "proj"] ⟨["make"], 5⟩
    ⟨["make", "check"], 7⟩ (by rfl)

/-- C9: project identity is the trailing path component.  After
registering `wd1`, registering a distinct `wd2` with the same trailing
component does not create a watcher, watches no new directory, and only
replaces the existing watcher's configuration — that watcher's working
directory remains `wd1`. -/
theorem C9_identity_is_trailing_component (srv : WatsonServer)
    (wd1 wd2 : List String) (cfg1 cfg2 : ProjectConfig)
    (hnew : lookup_assoc srv.projects (get_project_name wd1) = none)
    (hsame : get_project_name wd1 = get_project_name wd2)
    (_hne : wd1 ≠ wd2) :
    (((srv.add_project wd1 cfg1).add_project wd2 cfg2).projects.length =
        (srv.add_project wd1 cfg1).projects.length)
  ∧ (((srv.add_project wd1 cfg1).add_project wd2 cfg2).observer =
      (srv.add_project wd1 cfg1).observer)
  ∧ (∃ w2, lookup_assoc
        (((srv.add_project wd1 cfg1).add_project wd2 cfg2).projects)
        (get_project_name wd2) = some w2 ∧
      w2.working_dir = wd1 ∧ w2.config = ProjectConfig.ofUser cfg2) := by
  have h1 := add_project_new srv wd1 cfg1 hnew
  have hlook1 : lookup_assoc ((srv.add_project wd1 cfg1).projects)
      (get_project_name wd2) =
      some ⟨some srv.sched.nextId, get_project_name wd1, wd1,
        ProjectConfig.ofUser cfg1, none, wd1⟩ := by
    rw [h1, ← hsame]
    rw [lookup_assoc_append_of_none _ _ _ hnew]
    exact lookup_assoc_cons_self _ _ _
  have h2 := add_project_existing (srv.add_project wd1 cfg1) wd2 cfg2 _ hlook1
  refine ⟨?_, ?_, ?_⟩
  · rw [h2]
    simp [update_assoc_length]
  · rw [h2]
  · refine ⟨⟨some (srv.add_project wd1 cfg1).sched.nextId,
      get_project_name wd1, wd1, ProjectConfig.ofUser cfg2, none, wd1⟩,
      ?_, rfl, rfl⟩
    rw [h2]
    show lookup_assoc (update_assoc ((srv.add_project wd1 cfg1).projects)
      (get_project_name wd2) _) (get_project_name wd2) = _
    rw [lookup_assoc_update_self _ _ _ _ hlook1]

/-- Witness for C9: `/a/proj` then `/b/proj` — same trailing component
"proj", different directories; the watcher keeps working directory
`/a/proj` and `/b/proj` is never watched. -/
theorem C9_identity_is_trailing_component_witness :
    (((demoServer.add_project ["a", "proj"] ⟨["make"], 5⟩).add_project
        ["b", "proj"] ⟨["tox"], 9⟩).projects.length =
      (demoServer.add_project ["a", "proj"] ⟨["make"], 5⟩).projects.length)
  ∧ (((demoServer.add_project ["a", "proj"] ⟨["make"], 5⟩).add_project
        ["b", "proj"] ⟨["tox"], 9⟩).observer =
      (demoServer.add_project ["a", "proj"] ⟨["make"], 5⟩).observer)
  ∧ (∃ w2, lookup_assoc
        (((demoServer.add_project ["a", "proj"] ⟨["make"], 5⟩).add_project
          ["b", "proj"] ⟨["tox"], 9⟩).projects)
        (get_project_name ["b", "proj"]) = some w2 ∧
      w2.working_dir = ["a", "proj"] ∧
      w2.config = ProjectConfig.ofUser ⟨["tox"], 9⟩) :=
  C9_identity_is_trailing_component demoServer ["a", "proj"] ["b", "proj"]
    ⟨["make"], 5⟩ ⟨["tox"], 9⟩ (by rfl) (by rfl) (by decide)

/-! ### The scheduler worker under `stop` -/

/-- Formalisation of C3 as stated: once `stop` has taken effect
(`_is_finished` is set), no timer pending at that instant ever has its
callback executed. -/
def stop_cancels_pending : Prop :=
  ∀ s s' : SchedulerState, s.is_finished = true → SchedulerSteps s s' →
    ∀ e ∈ s.queue, e ∉ s'.executed

/-- C3 counterexample: `stop` does not cancel anything.  From the state
where `stop` has just set the flag while timer 0 is pending and the worker
is inside `sched.run`, one `fire` step executes timer 0's callback — so a
timer pending at stop time does run. -/
theorem C3_stop_counterexample : ¬ stop_cancels_pending := by
  intro h
  have hstep : SchedulerStep
      ⟨[0], 1, true, WorkerPhase.running, false, []⟩
      ⟨[], 1, true, WorkerPhase.running, false, [0]⟩ :=
    SchedulerStep.fire _ 0 [] rfl rfl
  have h0 := h _ _ rfl (Relation.ReflTransGen.single hstep) 0 (by decide)
  exact h0 (by decide)

/-- C3 amended: `EventScheduler.stop` only sets the finished flag and
notifies; it cancels no pending timer.  A worker that is inside
`sched.run` with the flag already set still fires every pending timer, in
order, and only then terminates and sets the join event that
`join`/`shutdown` block on — so builds queued at stop time are executed
before shutdown completes, not dropped. -/
theorem C3_stop_drains_queue (q : List Nat) (n : Nat) (done : List Nat) :
    SchedulerSteps ⟨q, n, true, WorkerPhase.running, false, done⟩
      ⟨[], n, true, WorkerPhase.terminated, true, done ++ q⟩ := by
  induction q generalizing done with
  | nil =>
    have hfin : SchedulerStep ⟨[], n, true, WorkerPhase.running, false, done⟩
        ⟨[], n, true, WorkerPhase.terminated, true, done⟩ :=
      SchedulerStep.empty_finished _ rfl rfl rfl
    simpa [SchedulerSteps] using Relation.ReflTransGen.single hfin
  | cons e rest ih =>
    have hfire : SchedulerStep
        ⟨e :: rest, n, true, WorkerPhase.running, false, done⟩
        ⟨rest, n, true, WorkerPhase.running, false, done ++ [e]⟩ :=
      SchedulerStep.fire _ e rest rfl rfl
    have htail := ih (done ++ [e])
    have hchain : SchedulerSteps
        ⟨e :: rest, n, true, WorkerPhase.running, false, done⟩
        ⟨[], n, true, WorkerPhase.terminated, true, (done ++ [e]) ++ rest⟩ :=
      Relation.ReflTransGen.head hfire htail
    simpa [List.append_assoc] using hchain

end Watson
